import Mathlib

/-!
Verification of the gadder_gold_token ledger state engine
(staking, governance and bridge contracts) against its
natural-language specification.

Shallow embedding conventions, matching the Rust source
(`src/gadder_gold_token/src/*.rs`) compiled in release mode as Solana
programs are:
* `u64` values are `Nat`, with wrapping arithmetic written explicitly as
  `% 2 ^ 64` (release-mode overflow semantics); `u64::saturating_sub` is
  `Nat` subtraction, which is saturating by construction.
* `i64` values are `Int` restricted to `[-2 ^ 63, 2 ^ 63)`; wrapping
  conversions and arithmetic go through `i64Wrap`.
* account data buffers are `List Nat` of byte values; a Rust slice read
  `src[a..b]` is `(src.drop a).take (b - a)` and a single index `src[i]`
  is `(src.drop i).headD 0`, with the source's implicit bounds checks
  made explicit (an out-of-bounds access is a Rust panic, modelled by
  the `panicked` result constructors below).
* the external collaborators are modelled by parameters: `is_signer`
  flags and the `token_program == spl_token::id()` comparison are
  `Bool` arguments, the clock is an `Int` argument `now`, and the
  outcome of the `invoke`d SPL/system transfer is a `Bool` argument
  `transferOk` (a failed transfer surfaces as the `transferFailed`
  error kind of the specification).
* `msg!` logging is not modelled (it carries no state).
* the account-iterator extraction (`next_account_info`) is elided: each
  operation takes the accounts it actually uses as explicit arguments.
-/

/-- Error kinds of `solana_program::program_error::ProgramError` used by the
source, plus `transferFailed` for the error propagated out of a failed
`invoke` of the value-transfer collaborator. -/
inductive ProgramError where
  | missingRequiredSignature
  | invalidAccountData
  | insufficientFunds
  | invalidArgument
  | illegalOwner
  | uninitializedAccount
  | transferFailed
deriving DecidableEq, Repr

/-- Result of a codec `unpack_from_slice`: a decoded value, a returned
`ProgramError`, or a Rust panic caused by an out-of-bounds slice access.
The `Stake` and `Vote` codecs never produce `panicked`; the `Proposal`
codec can (see `proposalUnpackFromSlice`). -/
inductive UnpackResult (α : Type) where
  | ok (a : α)
  | err (e : ProgramError)
  | panicked
deriving DecidableEq, Repr

/-- Result of one contract operation (`ProgramResult` in the source):
success, a returned error, or a Rust panic. -/
inductive PResult where
  | ok
  | err (e : ProgramError)
  | panicked
deriving DecidableEq, Repr

/-- Little-endian byte encoding of the low `w` bytes of `n`
(`to_le_bytes` truncated to `w` bytes; for `w = 8` and `n < 2 ^ 64` this
is exactly `u64::to_le_bytes`). -/
def toLe : Nat → Nat → List Nat
  | 0, _ => []
  | w + 1, n => n % 256 :: toLe w (n / 256)

/-- Little-endian byte decoding (`from_le_bytes` of the given slice). -/
def fromLe : List Nat → Nat
  | [] => 0
  | b :: rest => b + 256 * fromLe rest

/-- Reinterpret the low 64 bits as a signed `i64` value. -/
def i64FromNat (n : Nat) : Int :=
  if n < 2 ^ 63 then (n : Int) else (n : Int) - 2 ^ 64

/-- The 64-bit two's-complement pattern of an `i64` value, as a `Nat`. -/
def i64ToNat (x : Int) : Nat := (x % (2 ^ 64 : Int)).toNat

/-- Wrap an integer into `i64` range (release-mode overflow semantics). -/
def i64Wrap (x : Int) : Int := i64FromNat (i64ToNat x)

/-- `u64 as i64` bit reinterpretation. -/
def u64ToI64 (n : Nat) : Int := i64FromNat (n % 2 ^ 64)

/-- Wrapping `u64` addition. -/
def u64Add (a b : Nat) : Nat := (a + b) % 2 ^ 64

/-- Wrapping `u64` multiplication. -/
def u64Mul (a b : Nat) : Nat := (a * b) % 2 ^ 64

/-- `bool as u8`. -/
def boolByte (b : Bool) : Nat := if b then 1 else 0

/-- `Stake` record (`staking_contract.rs`): `amount: u64`,
`lock_until: i64`, `is_initialized: bool`. -/
structure Stake where
  amount : Nat
  lock_until : Int
  is_initialized : Bool
deriving DecidableEq, Repr

/-- The in-range side conditions making a `Stake` a valid Rust value. -/
def stakeWf (s : Stake) : Prop :=
  s.amount < 2 ^ 64 ∧ -2 ^ 63 ≤ s.lock_until ∧ s.lock_until < 2 ^ 63

instance (s : Stake) : Decidable (stakeWf s) := by unfold stakeWf; infer_instance

/-- The 17 bytes written by `Stake::pack_into_slice`: `amount` LE at 0,
`lock_until` LE at 8, `is_initialized` at 16. -/
def stakeBytes (s : Stake) : List Nat :=
  toLe 8 s.amount ++ toLe 8 (i64ToNat s.lock_until) ++ [boolByte s.is_initialized]

/-- `Stake::pack_into_slice` into a caller buffer: the three
`copy_from_slice` writes at offsets 0, 8 and 16 replace the first 17
bytes and keep the tail; a buffer shorter than 17 bytes makes the writes
panic (`none`). -/
def stakePackIntoSlice (s : Stake) (dst : List Nat) : Option (List Nat) :=
  if 17 ≤ dst.length then some (stakeBytes s ++ dst.drop 17) else none

/-- `Stake::unpack_from_slice`: rejects buffers shorter than
`Stake::LEN = 17`, then reads `amount` from bytes 0..8, `lock_until`
from bytes 8..16 and `is_initialized` from byte 16 (`!= 0`). -/
def stakeUnpackFromSlice (src : List Nat) : UnpackResult Stake :=
  if src.length < 17 then .err .invalidAccountData
  else .ok
    { amount := fromLe (src.take 8)
      lock_until := i64FromNat (fromLe ((src.drop 8).take 8))
      is_initialized := (src.drop 16).headD 0 != 0 }

/-- `solana_program::program_pack::Pack::unpack` for `Stake`:
`unpack_unchecked` requires the buffer length to equal `LEN = 17`
exactly, then the `IsInitialized` guard rejects uninitialized records. -/
def stakeUnpack (src : List Nat) : UnpackResult Stake :=
  if src.length ≠ 17 then .err .invalidAccountData
  else
    match stakeUnpackFromSlice src with
    | .ok v => if v.is_initialized then .ok v else .err .uninitializedAccount
    | .err e => .err e
    | .panicked => .panicked

/-- One requested call of the external value-transfer collaborator
(`token_instruction::transfer` / `system_instruction::transfer`). -/
structure Transfer where
  source : List Nat
  dest : List Nat
  amount : Nat
deriving DecidableEq, Repr

/-- The engine-local aggregate state of `StakingContract`. -/
structure StakingContract where
  total_staked : Nat
  reward_pool : Nat
  penalty_pool : Nat
deriving DecidableEq, Repr

/-- `StakingContract::new()`. -/
def StakingContract.new : StakingContract :=
  { total_staked := 0, reward_pool := 15000000, penalty_pool := 0 }

/-- `StakingContract::redistribute_penalty`: no-op when `total_staked`
or `penalty_pool` is zero; otherwise moves the whole `penalty_pool` into
`reward_pool` (wrapping `+=`) and zeroes it.  The quotient
`penalty_pool / total_staked` is computed only for the log line and has
no effect on state. -/
def redistributePenalty (self : StakingContract) : StakingContract :=
  if self.total_staked = 0 ∨ self.penalty_pool = 0 then self
  else
    { self with
      reward_pool := u64Add self.reward_pool self.penalty_pool
      penalty_pool := 0 }

/-- Outcome of a staking operation: final engine aggregate, final bytes
of the staking position account, transfers requested from the external
collaborator, and the returned `ProgramResult`. -/
structure StakeOutcome where
  engine : StakingContract
  stakingData : List Nat
  transfers : List Transfer
  result : PResult
deriving DecidableEq, Repr

/-- `StakingContract::stake_tokens` after account extraction: checks the
signer and token-program id, builds a fresh `Stake` with
`lock_until = now + lock_period_in_days as i64 * 86400` (wrapping i64
arithmetic), packs it into the staking account, requests the
staker-to-pool transfer, and only then (on transfer success) bumps
`total_staked`. -/
def stakeTokens (self : StakingContract) (stakerAuthIsSigner tokenProgramOk : Bool)
    (stakerKey poolKey : List Nat) (stakingData : List Nat)
    (now : Int) (amount : Nat) (lockPeriodInDays : Nat) (transferOk : Bool) : StakeOutcome :=
  if stakerAuthIsSigner = false then ⟨self, stakingData, [], .err .missingRequiredSignature⟩
  else if tokenProgramOk = false then ⟨self, stakingData, [], .err .invalidAccountData⟩
  else
    let stakeData : Stake :=
      { amount := amount
        lock_until := i64Wrap (now + i64Wrap (u64ToI64 lockPeriodInDays * 86400))
        is_initialized := true }
    match stakePackIntoSlice stakeData stakingData with
    | none => ⟨self, stakingData, [], .panicked⟩
    | some newData =>
      if transferOk = false then
        ⟨self, newData, [⟨stakerKey, poolKey, amount⟩], .err .transferFailed⟩
      else
        ⟨{ self with total_staked := u64Add self.total_staked amount }, newData,
          [⟨stakerKey, poolKey, amount⟩], .ok⟩

/-- `StakingContract::unstake_tokens` after account extraction: checks
the signer and token-program id, decodes the position
(`Stake::unpack`), rejects `amount > stake.amount` with
`InsufficientFunds`, computes the penalty tier from the remaining lock
time, decrements the record and packs it back, updates the aggregates,
requests the pool-to-staker transfer of `final_amount`, and on transfer
success redistributes the penalty pool. -/
def unstakeTokens (self : StakingContract) (stakerAuthIsSigner tokenProgramOk : Bool)
    (poolKey stakerKey : List Nat) (stakingData : List Nat)
    (now : Int) (amount : Nat) (transferOk : Bool) : StakeOutcome :=
  if stakerAuthIsSigner = false then ⟨self, stakingData, [], .err .missingRequiredSignature⟩
  else if tokenProgramOk = false then ⟨self, stakingData, [], .err .invalidAccountData⟩
  else
    match stakeUnpack stakingData with
    | .err e => ⟨self, stakingData, [], .err e⟩
    | .panicked => ⟨self, stakingData, [], .panicked⟩
    | .ok stakeData =>
      if stakeData.amount < amount then ⟨self, stakingData, [], .err .insufficientFunds⟩
      else
        let penalty : Nat :=
          if now < stakeData.lock_until then
            let remainingDays := Int.tdiv (i64Wrap (stakeData.lock_until - now)) 86400
            if remainingDays > 90 then 10
            else if remainingDays > 30 then 7
            else 5
          else 0
        let penaltyAmount := u64Mul amount penalty / 100
        let finalAmount := amount - penaltyAmount
        let newStake : Stake := { stakeData with amount := stakeData.amount - amount }
        match stakePackIntoSlice newStake stakingData with
        | none => ⟨self, stakingData, [], .panicked⟩
        | some newData =>
          let self' : StakingContract :=
            { self with
              total_staked := self.total_staked - amount
              penalty_pool := u64Add self.penalty_pool penaltyAmount }
          if transferOk = false then
            ⟨self', newData, [⟨poolKey, stakerKey, finalAmount⟩], .err .transferFailed⟩
          else
            ⟨redistributePenalty self', newData, [⟨poolKey, stakerKey, finalAmount⟩], .ok⟩

/-- `StakingContract::get_staked_amount`: decodes the position with
`Stake::unpack` and returns `stake.amount`; a decode failure is
propagated as the error, not mapped to zero. -/
def getStakedAmount (stakingData : List Nat) : UnpackResult Nat :=
  match stakeUnpack stakingData with
  | .ok s => .ok s.amount
  | .err e => .err e
  | .panicked => .panicked

/-- The spec's penalty-tier table, written from its words: remaining
lock days `r = (lock_until - now) / 86400` (integer division) select
10% for `r > 90`, 7% for `30 < r ≤ 90`, 5% for `r ≤ 30`, and 0% once
`now ≥ lock_until`. -/
def specPenaltyPct (lockUntil now : Int) : Nat :=
  if now < lockUntil then
    let r := Int.tdiv (lockUntil - now) 86400
    if r > 90 then 10 else if r > 30 then 7 else 5
  else 0

/-- The spec's payout formula:
`final_amount = amount - floor(amount * pct / 100)`. -/
def specFinalAmount (amount pct : Nat) : Nat := amount - amount * pct / 100

/-- Is `b` a UTF-8 continuation byte (`0x80..=0xBF`)? -/
def utf8Cont (b : Nat) : Bool := 128 ≤ b && b ≤ 191

/-- UTF-8 validation with explicit fuel (one unit per leading byte),
following the validation performed by Rust's `String::from_utf8`:
well-formed sequence lengths, no overlong encodings, no surrogates,
and code points at most `U+10FFFF`. -/
def utf8ValidFuel : Nat → List Nat → Bool
  | _, [] => true
  | 0, _ :: _ => false
  | fuel + 1, b :: rest =>
    if b ≤ 127 then utf8ValidFuel fuel rest
    else if 194 ≤ b && b ≤ 223 then
      match rest with
      | b1 :: r => utf8Cont b1 && utf8ValidFuel fuel r
      | [] => false
    else if b = 224 then
      match rest with
      | b1 :: b2 :: r => (160 ≤ b1 && b1 ≤ 191) && utf8Cont b2 && utf8ValidFuel fuel r
      | _ => false
    else if (225 ≤ b && b ≤ 236) || b = 238 || b = 239 then
      match rest with
      | b1 :: b2 :: r => utf8Cont b1 && utf8Cont b2 && utf8ValidFuel fuel r
      | _ => false
    else if b = 237 then
      match rest with
      | b1 :: b2 :: r => (128 ≤ b1 && b1 ≤ 159) && utf8Cont b2 && utf8ValidFuel fuel r
      | _ => false
    else if b = 240 then
      match rest with
      | b1 :: b2 :: b3 :: r =>
        (144 ≤ b1 && b1 ≤ 191) && utf8Cont b2 && utf8Cont b3 && utf8ValidFuel fuel r
      | _ => false
    else if 241 ≤ b && b ≤ 243 then
      match rest with
      | b1 :: b2 :: b3 :: r =>
        utf8Cont b1 && utf8Cont b2 && utf8Cont b3 && utf8ValidFuel fuel r
      | _ => false
    else if b = 244 then
      match rest with
      | b1 :: b2 :: b3 :: r =>
        (128 ≤ b1 && b1 ≤ 143) && utf8Cont b2 && utf8Cont b3 && utf8ValidFuel fuel r
      | _ => false
    else false

/-- `String::from_utf8` succeeds on exactly the valid byte sequences. -/
def utf8Valid (l : List Nat) : Bool := utf8ValidFuel l.length l

/-- `Proposal` record (`governance_contract.rs`).  The Rust `String`
`description` is represented by its UTF-8 byte content; `proposer` is
the 32-byte `Pubkey`. -/
structure Proposal where
  description : List Nat
  proposer : List Nat
  active : Bool
  timestamp : Int
  is_initialized : Bool
deriving DecidableEq, Repr

/-- Side conditions making a `Proposal` a valid Rust value: a 32-byte
proposer key, UTF-8-valid description bytes, and an in-range `i64`
timestamp. -/
def proposalWf (p : Proposal) : Prop :=
  p.proposer.length = 32 ∧ utf8Valid p.description = true ∧
    -2 ^ 63 ≤ p.timestamp ∧ p.timestamp < 2 ^ 63

instance (p : Proposal) : Decidable (proposalWf p) := by
  unfold proposalWf; infer_instance

/-- The `4 + desc_len + 42` bytes written by `Proposal::pack_into_slice`:
4-byte LE description length, description bytes, 32-byte proposer,
`active`, 8-byte LE timestamp, `is_initialized`. -/
def proposalBytes (p : Proposal) : List Nat :=
  toLe 4 p.description.length ++ p.description ++ p.proposer ++
    [boolByte p.active] ++ toLe 8 (i64ToNat p.timestamp) ++ [boolByte p.is_initialized]

/-- `Proposal::pack_into_slice` into a caller buffer: the sequential
`copy_from_slice` writes replace the first `desc_len + 46` bytes and
keep the tail.  A proposer that is not exactly 32 bytes or a buffer too
short for the last write makes `copy_from_slice` panic (`none`). -/
def proposalPackIntoSlice (p : Proposal) (dst : List Nat) : Option (List Nat) :=
  if p.proposer.length = 32 ∧ p.description.length + 46 ≤ dst.length then
    some (proposalBytes p ++ dst.drop (p.description.length + 46))
  else none

/-- `Proposal::unpack_from_slice`, including its missing trailing bounds
check: the source rejects buffers shorter than 45 bytes and description
lengths that overrun the buffer, but then reads the 32-byte proposer,
1-byte `active`, 8-byte timestamp and 1-byte `is_initialized` at
offsets `4 + desc_len ..` without checking that they fit, so those
slice indexings can panic. -/
def proposalUnpackFromSlice (src : List Nat) : UnpackResult Proposal :=
  if src.length < 45 then .err .invalidAccountData
  else
    let descLen := fromLe (src.take 4)
    if src.length < 4 + descLen then .err .invalidAccountData
    else
      let desc := (src.drop 4).take descLen
      if utf8Valid desc = false then .err .invalidAccountData
      else
        let c := 4 + descLen
        if src.length < c + 32 then .panicked
        else
          let proposer := (src.drop c).take 32
          if src.length ≤ c + 32 then .panicked
          else
            let active := (src.drop (c + 32)).headD 0 != 0
            if src.length < c + 41 then .panicked
            else
              let timestamp := i64FromNat (fromLe ((src.drop (c + 33)).take 8))
              if src.length ≤ c + 41 then .panicked
              else
                let isInit := (src.drop (c + 41)).headD 0 != 0
                .ok ⟨desc, proposer, active, timestamp, isInit⟩

/-- `Pack::unpack` for `Proposal`: buffer length must equal
`LEN = 300` exactly, then the `IsInitialized` guard applies. -/
def proposalUnpack (src : List Nat) : UnpackResult Proposal :=
  if src.length ≠ 300 then .err .invalidAccountData
  else
    match proposalUnpackFromSlice src with
    | .ok v => if v.is_initialized then .ok v else .err .uninitializedAccount
    | .err e => .err e
    | .panicked => .panicked

/-- `Vote` record (`governance_contract.rs`). -/
structure Vote where
  proposal : List Nat
  voter : List Nat
  vote : Bool
  weight : Nat
  is_initialized : Bool
deriving DecidableEq, Repr

/-- Side conditions making a `Vote` a valid Rust value. -/
def voteWf (v : Vote) : Prop :=
  v.proposal.length = 32 ∧ v.voter.length = 32 ∧ v.weight < 2 ^ 64

instance (v : Vote) : Decidable (voteWf v) := by unfold voteWf; infer_instance

/-- The bytes written by `Vote::pack_into_slice`: proposal at 0, voter
at 32, `vote` at 64, weight LE at 65, `is_initialized` at 73 — 74 bytes
in total, although the source declares `Vote::LEN = 73` (its layout
comment `32 + 32 + 1 + 8 + 1` actually sums to 74). -/
def voteBytes (v : Vote) : List Nat :=
  v.proposal ++ v.voter ++ [boolByte v.vote] ++ toLe 8 v.weight ++
    [boolByte v.is_initialized]

/-- `Vote::pack_into_slice` into a caller buffer (panics, `none`, when a
key is not 32 bytes or the buffer cannot hold the final write at index
73, i.e. is shorter than 74 bytes). -/
def votePackIntoSlice (v : Vote) (dst : List Nat) : Option (List Nat) :=
  if v.proposal.length = 32 ∧ v.voter.length = 32 ∧ 74 ≤ dst.length then
    some (voteBytes v ++ dst.drop 74)
  else none

/-- `Vote::unpack_from_slice`: rejects buffers shorter than
`Vote::LEN = 73`, then reads the fixed-offset fields; because the
trailing `is_initialized` read indexes `src[73]`, a buffer of exactly
73 bytes passes the length check and then panics. -/
def voteUnpackFromSlice (src : List Nat) : UnpackResult Vote :=
  if src.length < 73 then .err .invalidAccountData
  else if src.length ≤ 73 then .panicked
  else .ok
    { proposal := src.take 32
      voter := (src.drop 32).take 32
      vote := (src.drop 64).headD 0 != 0
      weight := fromLe ((src.drop 65).take 8)
      is_initialized := (src.drop 73).headD 0 != 0 }

/-- `ADMIN_PUBKEY` (`lib.rs`): 32 bytes of `0xAA`. -/
def ADMIN_PUBKEY : List Nat := List.replicate 32 170

/-- `GOVERNANCE_PUBKEY` (`lib.rs`): 32 bytes of `0xBB`. -/
def GOVERNANCE_PUBKEY : List Nat := List.replicate 32 187

/-- Outcome of a governance operation on the proposal account. -/
structure ExecOutcome where
  proposalData : List Nat
  result : PResult
deriving DecidableEq, Repr

/-- `GovernanceContract::create_proposal` after account extraction:
requires the proposer signature, then writes a fresh
`Proposal { description, proposer, active: true, timestamp: now,
is_initialized: true }` into the proposal account. -/
def createProposal (proposerIsSigner : Bool) (proposerKey : List Nat)
    (now : Int) (description : List Nat) (proposalData : List Nat) : ExecOutcome :=
  if proposerIsSigner = false then ⟨proposalData, .err .missingRequiredSignature⟩
  else
    let proposal : Proposal :=
      { description := description, proposer := proposerKey, active := true,
        timestamp := now, is_initialized := true }
    match proposalPackIntoSlice proposal proposalData with
    | none => ⟨proposalData, .panicked⟩
    | some d => ⟨d, .ok⟩

/-- `GovernanceContract::execute_proposal` after account extraction:
the authority key must equal `ADMIN_PUBKEY` or `GOVERNANCE_PUBKEY`
(else `IllegalOwner`), the authority must be a signer, the proposal is
decoded with `Pack::unpack`, an inactive proposal is rejected with
`InvalidArgument`, and otherwise `active` is set to `false` and the
record re-encoded in place. -/
def executeProposal (authorityKey : List Nat) (authorityIsSigner : Bool)
    (proposalData : List Nat) : ExecOutcome :=
  if authorityKey ≠ ADMIN_PUBKEY ∧ authorityKey ≠ GOVERNANCE_PUBKEY then
    ⟨proposalData, .err .illegalOwner⟩
  else if authorityIsSigner = false then ⟨proposalData, .err .missingRequiredSignature⟩
  else
    match proposalUnpack proposalData with
    | .err e => ⟨proposalData, .err e⟩
    | .panicked => ⟨proposalData, .panicked⟩
    | .ok proposal =>
      if proposal.active = false then ⟨proposalData, .err .invalidArgument⟩
      else
        match proposalPackIntoSlice { proposal with active := false } proposalData with
        | none => ⟨proposalData, .panicked⟩
        | some d => ⟨d, .ok⟩

/-- The vote-weight lookup inside `vote_on_proposal`:
`staking_contract.get_staked_amount(staking_acc).unwrap_or(0)` — a
decode failure is mapped to weight `0` here, at the call site. -/
def voteWeight (stakingData : List Nat) : Nat :=
  match getStakedAmount stakingData with
  | .ok a => a
  | .err _ => 0
  | .panicked => 0

/-- Outcome of `vote_on_proposal` on the vote account (the proposal and
staking accounts are only read). -/
structure VoteOutcome where
  voteData : List Nat
  result : PResult
deriving DecidableEq, Repr

/-- `GovernanceContract::vote_on_proposal` after account extraction:
requires the voter signature, decodes the proposal and rejects an
inactive one with `InvalidArgument`, looks up the voter's stake as the
weight (decode failure means weight 0), and writes the `Vote` record
into the vote account. -/
def voteOnProposal (voterIsSigner : Bool) (voterKey proposalKey : List Nat)
    (proposalData stakingData : List Nat) (voteInFavor : Bool)
    (voteData : List Nat) : VoteOutcome :=
  if voterIsSigner = false then ⟨voteData, .err .missingRequiredSignature⟩
  else
    match proposalUnpack proposalData with
    | .err e => ⟨voteData, .err e⟩
    | .panicked => ⟨voteData, .panicked⟩
    | .ok proposal =>
      if proposal.active = false then ⟨voteData, .err .invalidArgument⟩
      else
        let vote : Vote :=
          { proposal := proposalKey, voter := voterKey, vote := voteInFavor,
            weight := voteWeight stakingData, is_initialized := true }
        match votePackIntoSlice vote voteData with
        | none => ⟨voteData, .panicked⟩
        | some d => ⟨d, .ok⟩

/-- Outcome of a bridge operation: transfers requested from the external
collaborator and the returned `ProgramResult`. -/
structure BridgeOutcome where
  transfers : List Transfer
  result : PResult
deriving DecidableEq, Repr

/-- `CrossChainBridge::lock_tokens_for_bridge` after account extraction:
requires the sender signature, then requests the sender-to-bridge
transfer; `target_chain` is only logged. -/
def lockTokensForBridge (senderIsSigner : Bool) (senderKey bridgeKey : List Nat)
    (amount : Nat) (targetChain : List Nat) (transferOk : Bool) : BridgeOutcome :=
  if senderIsSigner = false then ⟨[], .err .missingRequiredSignature⟩
  else if transferOk = false then
    ⟨[⟨senderKey, bridgeKey, amount⟩], .err .transferFailed⟩
  else ⟨[⟨senderKey, bridgeKey, amount⟩], .ok⟩

/-- `CrossChainBridge::release_tokens_on_target_chain` after account
extraction: requests the bridge-to-recipient transfer unconditionally.
The three account `is_signer` flags are never consulted, the
`_signature` attestation parameter is never read, and
`target_chain_address` is only logged. -/
def releaseTokensOnTargetChain (bridgeIsSigner recipientIsSigner sysIsSigner : Bool)
    (bridgeKey recipientKey : List Nat) (amount : Nat)
    (targetChainAddress : List Nat) (signature : List Nat)
    (transferOk : Bool) : BridgeOutcome :=
  if transferOk = false then
    ⟨[⟨bridgeKey, recipientKey, amount⟩], .err .transferFailed⟩
  else ⟨[⟨bridgeKey, recipientKey, amount⟩], .ok⟩

/-- Concrete fixture: an inactive (already executed) proposal. -/
def sampleProposalInactive : Proposal :=
  { description := [104, 105], proposer := List.replicate 32 9, active := false,
    timestamp := 123, is_initialized := true }

/-- Concrete fixture: the 300-byte account holding
`sampleProposalInactive` (48 record bytes plus 252 bytes of padding). -/
def sampleProposalInactiveData : List Nat :=
  proposalBytes sampleProposalInactive ++ List.replicate 252 0

/-- Concrete fixture: an open proposal. -/
def sampleProposalActive : Proposal :=
  { description := [104, 105], proposer := List.replicate 32 9, active := true,
    timestamp := 123, is_initialized := true }

/-- Concrete fixture: the 300-byte account holding
`sampleProposalActive`. -/
def sampleProposalActiveData : List Nat :=
  proposalBytes sampleProposalActive ++ List.replicate 252 0

theorem toLe_length (w n : Nat) : (toLe w n).length = w := by
  induction w generalizing n with
  | zero => rfl
  | succ w ih => simp [toLe, ih]

theorem fromLe_toLe (w n : Nat) : fromLe (toLe w n) = n % 256 ^ w := by
  induction w generalizing n with
  | zero => simp [toLe, fromLe, Nat.mod_one]
  | succ w ih =>
    have h256 : (256 : Nat) ^ (w + 1) = 256 * 256 ^ w := by ring
    rw [toLe, fromLe, ih, h256, Nat.mod_mul]

theorem fromLe_lt (l : List Nat) (h : ∀ b ∈ l, b < 256) :
    fromLe l < 256 ^ l.length := by
  induction l with
  | nil => simp [fromLe]
  | cons b rest ih =>
    have hb : b < 256 := h b (by simp)
    have hr : fromLe rest < 256 ^ rest.length := ih (fun x hx => h x (by simp [hx]))
    have : fromLe rest + 1 ≤ 256 ^ rest.length := hr
    calc fromLe (b :: rest) = b + 256 * fromLe rest := rfl
      _ < 256 + 256 * fromLe rest := by omega
      _ = 256 * (fromLe rest + 1) := by ring
      _ ≤ 256 * 256 ^ rest.length := by exact Nat.mul_le_mul_left 256 hr
      _ = 256 ^ (b :: rest).length := by simp [List.length_cons]; ring

theorem i64ToNat_lt (x : Int) : i64ToNat x < 2 ^ 64 := by
  unfold i64ToNat
  omega

theorem i64FromNat_i64ToNat (x : Int) (h1 : -2 ^ 63 ≤ x) (h2 : x < 2 ^ 63) :
    i64FromNat (i64ToNat x) = x := by
  unfold i64FromNat i64ToNat
  split <;> omega

theorem i64Wrap_eq (x : Int) (h1 : -2 ^ 63 ≤ x) (h2 : x < 2 ^ 63) : i64Wrap x = x :=
  i64FromNat_i64ToNat x h1 h2

theorem i64FromNat_range (n : Nat) (h : n < 2 ^ 64) :
    -2 ^ 63 ≤ i64FromNat n ∧ i64FromNat n < 2 ^ 63 := by
  unfold i64FromNat
  split <;> omega

theorem boolByte_ne_zero (b : Bool) : ((boolByte b : Nat) != 0) = b := by
  cases b <;> rfl

theorem take_append_len {α : Type} (l1 l2 : List α) (n : Nat) (h : l1.length = n) :
    (l1 ++ l2).take n = l1 := by
  subst h; exact List.take_left l1 l2

theorem drop_append_len {α : Type} (l1 l2 : List α) (n : Nat) (h : l1.length = n) :
    (l1 ++ l2).drop n = l2 := by
  subst h; exact List.drop_left l1 l2

theorem stakeBytes_length (s : Stake) : (stakeBytes s).length = 17 := by
  simp [stakeBytes, toLe_length]

theorem stakeUnpackFromSlice_stakeBytes (s : Stake) (hwf : stakeWf s) :
    stakeUnpackFromSlice (stakeBytes s) = .ok s := by
  obtain ⟨ha, hl1, hl2⟩ := hwf
  have hlen : (stakeBytes s).length = 17 := stakeBytes_length s
  unfold stakeUnpackFromSlice
  rw [if_neg (by omega)]
  have e1 : (stakeBytes s).take 8 = toLe 8 s.amount := by
    unfold stakeBytes
    rw [List.append_assoc, take_append_len _ _ 8 (toLe_length 8 _)]
  have e2 : (stakeBytes s).drop 8 = toLe 8 (i64ToNat s.lock_until) ++ [boolByte s.is_initialized] := by
    unfold stakeBytes
    rw [List.append_assoc, drop_append_len _ _ 8 (toLe_length 8 _)]
  have e3 : ((stakeBytes s).drop 8).take 8 = toLe 8 (i64ToNat s.lock_until) := by
    rw [e2, take_append_len _ _ 8 (toLe_length 8 _)]
  have e4 : (stakeBytes s).drop 16 = [boolByte s.is_initialized] := by
    have : (16 : Nat) = 8 + 8 := by norm_num
    rw [this, ← List.drop_drop, e2, drop_append_len _ _ 8 (toLe_length 8 _)]
  rw [e1, e3, e4]
  simp only [List.headD, fromLe_toLe, boolByte_ne_zero]
  congr 1
  have h256 : (256 : Nat) ^ 8 = 2 ^ 64 := by norm_num
  rw [h256, Nat.mod_eq_of_lt ha, Nat.mod_eq_of_lt (i64ToNat_lt _),
    i64FromNat_i64ToNat _ hl1 hl2]

theorem stakeUnpack_stakeBytes (s : Stake) (hwf : stakeWf s)
    (hinit : s.is_initialized = true) :
    stakeUnpack (stakeBytes s) = .ok s := by
  unfold stakeUnpack
  rw [if_neg (by simp [stakeBytes_length])]
  rw [stakeUnpackFromSlice_stakeBytes s hwf]
  simp [hinit]

theorem proposalBytes_assoc (p : Proposal) (tail : List Nat) :
    proposalBytes p ++ tail =
      toLe 4 p.description.length ++ (p.description ++ (p.proposer ++
        ([boolByte p.active] ++ (toLe 8 (i64ToNat p.timestamp) ++
          ([boolByte p.is_initialized] ++ tail))))) := by
  simp [proposalBytes, List.append_assoc]

theorem proposalBytes_tail_length (p : Proposal) (tail : List Nat)
    (hp : p.proposer.length = 32) :
    (proposalBytes p ++ tail).length = p.description.length + 46 + tail.length := by
  rw [proposalBytes_assoc]
  simp [List.length_append, toLe_length, hp]
  omega

theorem proposalUnpackFromSlice_bytes (p : Proposal) (tail : List Nat)
    (hp : p.proposer.length = 32) (hu : utf8Valid p.description = true)
    (hd : p.description.length < 2 ^ 32)
    (ht1 : -2 ^ 63 ≤ p.timestamp) (ht2 : p.timestamp < 2 ^ 63) :
    proposalUnpackFromSlice (proposalBytes p ++ tail) = .ok p := by
  have hlen := proposalBytes_tail_length p tail hp
  have hsrc := proposalBytes_assoc p tail
  have htake4 : (proposalBytes p ++ tail).take 4 = toLe 4 p.description.length := by
    rw [hsrc]; exact take_append_len _ _ 4 (toLe_length _ _)
  have hdlen : fromLe ((proposalBytes p ++ tail).take 4) = p.description.length := by
    rw [htake4, fromLe_toLe]
    have h4 : (256 : Nat) ^ 4 = 2 ^ 32 := by norm_num
    rw [h4]; exact Nat.mod_eq_of_lt hd
  have hdrop4 : (proposalBytes p ++ tail).drop 4 =
      p.description ++ (p.proposer ++ ([boolByte p.active] ++
        (toLe 8 (i64ToNat p.timestamp) ++ ([boolByte p.is_initialized] ++ tail)))) := by
    rw [hsrc]; exact drop_append_len _ _ 4 (toLe_length _ _)
  have hdesc : ((proposalBytes p ++ tail).drop 4).take p.description.length =
      p.description := by
    rw [hdrop4]; exact take_append_len _ _ _ rfl
  have hdropc : (proposalBytes p ++ tail).drop (4 + p.description.length) =
      p.proposer ++ ([boolByte p.active] ++
        (toLe 8 (i64ToNat p.timestamp) ++ ([boolByte p.is_initialized] ++ tail))) := by
    rw [← List.drop_drop, hdrop4]; exact drop_append_len _ _ _ rfl
  have hprop : ((proposalBytes p ++ tail).drop (4 + p.description.length)).take 32 =
      p.proposer := by
    rw [hdropc]; exact take_append_len _ _ 32 hp
  have hdropc32 : (proposalBytes p ++ tail).drop (4 + p.description.length + 32) =
      [boolByte p.active] ++ (toLe 8 (i64ToNat p.timestamp) ++
        ([boolByte p.is_initialized] ++ tail)) := by
    rw [← List.drop_drop, hdropc]; exact drop_append_len _ _ 32 hp
  have hdropc33 : (proposalBytes p ++ tail).drop (4 + p.description.length + 33) =
      toLe 8 (i64ToNat p.timestamp) ++ ([boolByte p.is_initialized] ++ tail) := by
    have e : 4 + p.description.length + 33 = (4 + p.description.length + 32) + 1 := by omega
    rw [e, ← List.drop_drop, hdropc32]; exact drop_append_len _ _ 1 rfl
  have hts : ((proposalBytes p ++ tail).drop (4 + p.description.length + 33)).take 8 =
      toLe 8 (i64ToNat p.timestamp) := by
    rw [hdropc33]; exact take_append_len _ _ 8 (toLe_length _ _)
  have hdropc41 : (proposalBytes p ++ tail).drop (4 + p.description.length + 41) =
      [boolByte p.is_initialized] ++ tail := by
    have e : 4 + p.description.length + 41 = (4 + p.description.length + 33) + 8 := by omega
    rw [e, ← List.drop_drop, hdropc33]; exact drop_append_len _ _ 8 (toLe_length _ _)
  simp only [proposalUnpackFromSlice, hdlen, hdesc, hprop, hts, hdropc32, hdropc41, hlen]
  rw [if_neg (by omega), if_neg (by omega), if_neg (by simp [hu]),
    if_neg (by omega), if_neg (by omega), if_neg (by omega), if_neg (by omega)]
  simp only [List.singleton_append, List.headD, boolByte_ne_zero, fromLe_toLe]
  have h8 : (256 : Nat) ^ 8 = 2 ^ 64 := by norm_num
  rw [h8, Nat.mod_eq_of_lt (i64ToNat_lt _), i64FromNat_i64ToNat _ ht1 ht2]

theorem stakeUnpack_ok_inv (src : List Nat) (s : Stake)
    (h : stakeUnpack src = .ok s) : src.length = 17 ∧ s.is_initialized = true := by
  unfold stakeUnpack at h
  split at h
  · cases h
  · rename_i hlen
    split at h
    · rename_i v hv
      split at h
      · rename_i hinit
        cases h
        exact ⟨by omega, hinit⟩
      · cases h
    · cases h
    · cases h

theorem proposalUnpackFromSlice_ok_inv (src : List Nat) (p : Proposal)
    (h : proposalUnpackFromSlice src = .ok p) :
    p.description.length + 46 ≤ src.length ∧ p.proposer.length = 32 ∧
      utf8Valid p.description = true ∧
      p.timestamp = i64FromNat (fromLe ((src.drop (4 + p.description.length + 33)).take 8)) := by
  simp only [proposalUnpackFromSlice] at h
  split at h
  · cases h
  · split at h
    · cases h
    · split at h
      · cases h
      · split at h
        · cases h
        · split at h
          · cases h
          · split at h
            · cases h
            · split at h
              · cases h
              · rename_i h45 hover hutf hb1 hb2 hb3 hb4
                cases h
                have hdl : ((src.drop 4).take (fromLe (src.take 4))).length =
                    fromLe (src.take 4) := by
                  rw [List.length_take, List.length_drop]
                  omega
                simp only [hdl]
                refine ⟨by omega, ?_, ?_, ?_⟩
                · rw [List.length_take, List.length_drop]; omega
                · simpa using hutf
                · simp

theorem proposalUnpack_ok_inv (src : List Nat) (p : Proposal)
    (h : proposalUnpack src = .ok p) :
    src.length = 300 ∧ proposalUnpackFromSlice src = .ok p ∧
      p.is_initialized = true := by
  unfold proposalUnpack at h
  split at h
  · cases h
  · rename_i hlen
    split at h
    · split at h
      · rename_i hv hinit
        cases h
        exact ⟨by omega, hv, hinit⟩
      · cases h
    · cases h
    · cases h

theorem proposalUnpackFromSlice_ok_ts_range (src : List Nat) (p : Proposal)
    (h : proposalUnpackFromSlice src = .ok p) (hw : ∀ b ∈ src, b < 256) :
    -2 ^ 63 ≤ p.timestamp ∧ p.timestamp < 2 ^ 63 := by
  obtain ⟨-, -, -, hts⟩ := proposalUnpackFromSlice_ok_inv src p h
  set B := (src.drop (4 + p.description.length + 33)).take 8 with hB
  have hsub : ∀ b ∈ B, b < 256 := by
    intro b hb
    exact hw b (List.drop_subset _ _ (List.take_subset _ _ hb))
  have hlt : fromLe B < 2 ^ 64 := by
    have h1 : fromLe B < 256 ^ B.length := fromLe_lt B hsub
    have h2 : B.length ≤ 8 := by
      rw [hB, List.length_take]; omega
    have h3 : (256 : Nat) ^ B.length ≤ 256 ^ 8 := Nat.pow_le_pow_right (by norm_num) h2
    have h4 : (256 : Nat) ^ 8 = 2 ^ 64 := by norm_num
    omega
  rw [hts]
  exact i64FromNat_range _ hlt

/-- C8: `redistribute_penalty` is a no-op when `total_staked = 0` or
`penalty_pool = 0`; otherwise it moves the entire `penalty_pool` into
`reward_pool` (wrapping u64 addition, the remainder of
`penalty_pool / total_staked` is not carried separately) and zeroes
`penalty_pool`; consequently it is idempotent — a second call with no
intervening stake/unstake is a no-op. -/
theorem redistribute_penalty_moves_pool_idempotent (s : StakingContract) :
    ((s.total_staked = 0 ∨ s.penalty_pool = 0) → redistributePenalty s = s) ∧
    (s.total_staked ≠ 0 → s.penalty_pool ≠ 0 →
      redistributePenalty s =
        ⟨s.total_staked, (s.reward_pool + s.penalty_pool) % 2 ^ 64, 0⟩) ∧
    redistributePenalty (redistributePenalty s) = redistributePenalty s := by
  refine ⟨?_, ?_, ?_⟩
  · intro h
    unfold redistributePenalty
    rw [if_pos h]
  · intro h1 h2
    unfold redistributePenalty u64Add
    rw [if_neg (by tauto)]
  · unfold redistributePenalty u64Add
    by_cases h : s.total_staked = 0 ∨ s.penalty_pool = 0
    · rw [if_pos h, if_pos h]
    · rw [if_neg h]
      simp

/-- C8 witness: on the concrete engine state
`⟨total_staked 3, reward_pool 10, penalty_pool 7⟩` the whole penalty
pool moves to the reward pool. -/
theorem redistribute_penalty_moves_pool_idempotent_witness :
    redistributePenalty ⟨3, 10, 7⟩ = ⟨3, (10 + 7) % 2 ^ 64, 0⟩ :=
  (redistribute_penalty_moves_pool_idempotent ⟨3, 10, 7⟩).2.1 (by decide) (by decide)

/-- C10: `release_tokens_on_target_chain` performs no authorization or
verification — its outcome is the same for any two attestation byte
strings, any target-chain addresses and any assignment of `is_signer`
flags (in particular all-false), and the bridge-to-recipient transfer
of `amount` is requested in every case. -/
theorem release_ignores_attestation_and_signers
    (bridgeKey recipientKey : List Nat) (amount : Nat)
    (addr1 addr2 sig1 sig2 : List Nat) (s1 s2 s3 : Bool) (transferOk : Bool) :
    releaseTokensOnTargetChain s1 s2 s3 bridgeKey recipientKey amount addr1 sig1 transferOk
      = releaseTokensOnTargetChain false false false bridgeKey recipientKey amount
          addr2 sig2 transferOk ∧
    (releaseTokensOnTargetChain false false false bridgeKey recipientKey amount
        addr1 sig1 transferOk).transfers
      = [⟨bridgeKey, recipientKey, amount⟩] := by
  constructor
  · rfl
  · cases transferOk <;> rfl

/-- C2: the `Proposal` decoder is not total — on the 50-byte buffer
whose declared description length is 46 (so that the description ends
exactly at the buffer end) the minimum-size and description-bounds
checks pass, and the subsequent read of the 32-byte proposer at offsets
50..82 indexes out of bounds: a Rust panic, not a malformed-data
error. -/
theorem proposal_decode_out_of_bounds_panic :
    proposalUnpackFromSlice (46 :: 0 :: 0 :: 0 :: List.replicate 46 65) =
      .panicked := by decide

/-- C3: when the requested amount exceeds the decoded stake's amount,
`unstake_tokens` fails with `InsufficientFunds`, requests no transfer
and leaves the engine aggregates and the stored record unchanged. -/
theorem unstake_insufficient_funds_unchanged (self : StakingContract)
    (poolKey stakerKey stakingData : List Nat) (s : Stake) (now : Int)
    (amount : Nat) (transferOk : Bool)
    (hdec : stakeUnpack stakingData = .ok s) (hlt : s.amount < amount) :
    unstakeTokens self true true poolKey stakerKey stakingData now amount transferOk
      = ⟨self, stakingData, [], .err .insufficientFunds⟩ := by
  unfold unstakeTokens
  rw [if_neg (by decide), if_neg (by decide), hdec]
  simp only []
  rw [if_pos hlt]

/-- C3 witness: unstaking 501 from a stake of 500 fails with
`InsufficientFunds` and changes nothing. -/
theorem unstake_insufficient_funds_unchanged_witness :
    unstakeTokens ⟨500, 15000000, 0⟩ true true (List.replicate 32 1)
        (List.replicate 32 2) (stakeBytes ⟨500, 0, true⟩) 0 501 true
      = ⟨⟨500, 15000000, 0⟩, stakeBytes ⟨500, 0, true⟩, [],
          .err .insufficientFunds⟩ :=
  unstake_insufficient_funds_unchanged ⟨500, 15000000, 0⟩ (List.replicate 32 1)
    (List.replicate 32 2) (stakeBytes ⟨500, 0, true⟩) ⟨500, 0, true⟩ 0 501 true
    (by decide) (by decide)

/-- C4 counterexample: on the empty buffer the stake decode fails, and
`get_staked_amount` returns the `InvalidAccountData` error — not
`Ok(0)` as the claim states. -/
theorem get_staked_amount_error_counterexample :
    stakeUnpack ([] : List Nat) = .err .invalidAccountData ∧
    getStakedAmount ([] : List Nat) = .err .invalidAccountData ∧
    getStakedAmount ([] : List Nat) ≠ .ok 0 := by decide

/-- C4 amended: when the stake decode fails, `get_staked_amount`
propagates the decode error (it does not return 0); the zero-on-failure
lenience lives at its call site in `vote_on_proposal`, whose
`unwrap_or(0)` weight lookup uses weight 0 for such a buffer. -/
theorem decode_failure_error_and_zero_weight (stakingData : List Nat)
    (e : ProgramError) (h : stakeUnpack stakingData = .err e) :
    getStakedAmount stakingData = .err e ∧ voteWeight stakingData = 0 := by
  unfold voteWeight getStakedAmount
  rw [h]
  exact ⟨rfl, rfl⟩

/-- C4 witness: on the empty buffer the propagated error is
`InvalidAccountData` and the vote weight is 0. -/
theorem decode_failure_error_and_zero_weight_witness :
    getStakedAmount ([] : List Nat) = .err .invalidAccountData ∧
      voteWeight ([] : List Nat) = 0 :=
  decode_failure_error_and_zero_weight [] .invalidAccountData (by decide)

set_option maxRecDepth 40000 in
/-- C5 counterexample: a vote cast by a valid signer on a proposal whose
`active` flag is false does not succeed — `vote_on_proposal` rejects it
with `InvalidArgument` and does not write the `Vote` record. -/
theorem vote_inactive_rejected_counterexample :
    voteOnProposal true (List.replicate 32 1) (List.replicate 32 2)
        sampleProposalInactiveData (List.replicate 17 0) true (List.replicate 73 0)
      = ⟨List.replicate 73 0, .err .invalidArgument⟩ := by decide

/-- C5 amended: for every proposal record whose `active` flag is false,
a vote cast by a valid signer fails with `InvalidArgument` and leaves
the vote account unchanged — voting is gated by the proposal's `active`
state. -/
theorem vote_inactive_proposal_rejected (voterKey proposalKey : List Nat)
    (proposalData stakingData voteData : List Nat) (voteInFavor : Bool)
    (p : Proposal) (hdec : proposalUnpack proposalData = .ok p)
    (hact : p.active = false) :
    voteOnProposal true voterKey proposalKey proposalData stakingData
        voteInFavor voteData
      = ⟨voteData, .err .invalidArgument⟩ := by
  unfold voteOnProposal
  rw [if_neg (by decide), hdec]
  simp only []
  rw [if_pos hact]

set_option maxRecDepth 40000 in
/-- C5 witness: the rejection on the concrete inactive proposal. -/
theorem vote_inactive_proposal_rejected_witness :
    voteOnProposal true (List.replicate 32 1) (List.replicate 32 2)
        sampleProposalInactiveData (List.replicate 17 0) false (List.replicate 73 0)
      = ⟨List.replicate 73 0, .err .invalidArgument⟩ :=
  vote_inactive_proposal_rejected (List.replicate 32 1) (List.replicate 32 2)
    sampleProposalInactiveData (List.replicate 17 0) (List.replicate 73 0) false
    sampleProposalInactive (by decide) (by decide)

theorem voteBytes_assoc (v : Vote) (tail : List Nat) :
    voteBytes v ++ tail =
      v.proposal ++ (v.voter ++ ([boolByte v.vote] ++
        (toLe 8 v.weight ++ ([boolByte v.is_initialized] ++ tail)))) := by
  simp [voteBytes, List.append_assoc]

theorem voteUnpackFromSlice_bytes (v : Vote) (tail : List Nat) (hwf : voteWf v) :
    voteUnpackFromSlice (voteBytes v ++ tail) = .ok v := by
  obtain ⟨hp, hv, hw⟩ := hwf
  have hsrc := voteBytes_assoc v tail
  have hlen : (voteBytes v ++ tail).length = 74 + tail.length := by
    rw [hsrc]; simp [List.length_append, toLe_length, hp, hv]; omega
  have htake32 : (voteBytes v ++ tail).take 32 = v.proposal := by
    rw [hsrc]; exact take_append_len _ _ 32 hp
  have hdrop32 : (voteBytes v ++ tail).drop 32 =
      v.voter ++ ([boolByte v.vote] ++
        (toLe 8 v.weight ++ ([boolByte v.is_initialized] ++ tail))) := by
    rw [hsrc]; exact drop_append_len _ _ 32 hp
  have hvoter : ((voteBytes v ++ tail).drop 32).take 32 = v.voter := by
    rw [hdrop32]; exact take_append_len _ _ 32 hv
  have hdrop64 : (voteBytes v ++ tail).drop 64 =
      [boolByte v.vote] ++ (toLe 8 v.weight ++ ([boolByte v.is_initialized] ++ tail)) := by
    have e : (64 : Nat) = 32 + 32 := by norm_num
    rw [e, ← List.drop_drop, hdrop32]; exact drop_append_len _ _ 32 hv
  have hdrop65 : (voteBytes v ++ tail).drop 65 =
      toLe 8 v.weight ++ ([boolByte v.is_initialized] ++ tail) := by
    have e : (65 : Nat) = 64 + 1 := by norm_num
    rw [e, ← List.drop_drop, hdrop64]; exact drop_append_len _ _ 1 rfl
  have hweight : ((voteBytes v ++ tail).drop 65).take 8 = toLe 8 v.weight := by
    rw [hdrop65]; exact take_append_len _ _ 8 (toLe_length _ _)
  have hdrop73 : (voteBytes v ++ tail).drop 73 = [boolByte v.is_initialized] ++ tail := by
    have e : (73 : Nat) = 65 + 8 := by norm_num
    rw [e, ← List.drop_drop, hdrop65]; exact drop_append_len _ _ 8 (toLe_length _ _)
  simp only [voteUnpackFromSlice, htake32, hvoter, hdrop64, hweight, hdrop73, hlen]
  rw [if_neg (by omega), if_neg (by omega)]
  simp only [List.singleton_append, List.headD, boolByte_ne_zero, fromLe_toLe]
  have h8 : (256 : Nat) ^ 8 = 2 ^ 64 := by norm_num
  rw [h8, Nat.mod_eq_of_lt hw]

/-- C9: codec round-trips — `Stake::unpack_from_slice` inverts
`Stake::pack_into_slice` on a 17-byte buffer for every valid `Stake`
value, and similarly for every valid `Proposal` whose description fits
the 300-byte record cap and every valid `Vote` (whose record actually
occupies 74 bytes, so the target buffer must hold at least 74). -/
theorem codec_roundtrip :
    (∀ (s : Stake) (dst : List Nat), stakeWf s → dst.length = 17 →
      stakePackIntoSlice s dst = some (stakeBytes s) ∧
        stakeUnpackFromSlice (stakeBytes s) = .ok s) ∧
    (∀ (p : Proposal) (dst : List Nat), proposalWf p → dst.length = 300 →
      p.description.length + 46 ≤ 300 →
      ∃ out, proposalPackIntoSlice p dst = some out ∧
        proposalUnpackFromSlice out = .ok p) ∧
    (∀ (v : Vote) (dst : List Nat), voteWf v → 74 ≤ dst.length →
      ∃ out, votePackIntoSlice v dst = some out ∧
        voteUnpackFromSlice out = .ok v) := by
  refine ⟨?_, ?_, ?_⟩
  · intro s dst hwf hlen
    constructor
    · unfold stakePackIntoSlice
      rw [if_pos (by omega), ← hlen, List.drop_length, List.append_nil]
    · exact stakeUnpackFromSlice_stakeBytes s hwf
  · intro p dst hwf hlen hcap
    obtain ⟨hp, hu, ht1, ht2⟩ := hwf
    refine ⟨proposalBytes p ++ dst.drop (p.description.length + 46), ?_, ?_⟩
    · unfold proposalPackIntoSlice
      rw [if_pos ⟨hp, by omega⟩]
    · exact proposalUnpackFromSlice_bytes p _ hp hu (by omega) ht1 ht2
  · intro v dst hwf hlen
    obtain ⟨hp, hv, hw⟩ := hwf
    refine ⟨voteBytes v ++ dst.drop 74, ?_, ?_⟩
    · unfold votePackIntoSlice
      rw [if_pos ⟨hp, hv, by omega⟩]
    · exact voteUnpackFromSlice_bytes v _ ⟨hp, hv, hw⟩

set_option maxRecDepth 40000 in
/-- C9 witness: the three round-trips on concrete records. -/
theorem codec_roundtrip_witness :
    (stakePackIntoSlice ⟨500, 0, true⟩ (List.replicate 17 0) =
        some (stakeBytes ⟨500, 0, true⟩) ∧
      stakeUnpackFromSlice (stakeBytes ⟨500, 0, true⟩) = .ok ⟨500, 0, true⟩) ∧
    (∃ out, proposalPackIntoSlice sampleProposalActive (List.replicate 300 0) =
        some out ∧ proposalUnpackFromSlice out = .ok sampleProposalActive) ∧
    (∃ out, votePackIntoSlice ⟨List.replicate 32 1, List.replicate 32 2, true, 200, true⟩
          (List.replicate 74 0) = some out ∧
        voteUnpackFromSlice out =
          .ok ⟨List.replicate 32 1, List.replicate 32 2, true, 200, true⟩) :=
  ⟨codec_roundtrip.1 ⟨500, 0, true⟩ (List.replicate 17 0) (by decide) (by decide),
    codec_roundtrip.2.1 sampleProposalActive (List.replicate 300 0) (by decide)
      (by decide) (by decide),
    codec_roundtrip.2.2 ⟨List.replicate 32 1, List.replicate 32 2, true, 200, true⟩
      (List.replicate 74 0) (by decide) (by decide)⟩

set_option maxRecDepth 40000 in
/-- C1 counterexample: for `amount = 2 ^ 61` unstaked 91 days before
`lock_until` (10% tier), the source computes `(amount * penalty)` in
wrapping u64 arithmetic, so the transferred amount is
2259726149029420073 — not `amount - floor(amount * 10 / 100)` as the
claim states for every u64 amount. -/
theorem unstake_penalty_overflow_counterexample :
    (unstakeTokens ⟨2305843009213693952, 15000000, 0⟩ true true (List.replicate 32 1)
        (List.replicate 32 2) (stakeBytes ⟨2305843009213693952, 7862400, true⟩) 0
        2305843009213693952 true).transfers
      = [⟨List.replicate 32 1, List.replicate 32 2, 2259726149029420073⟩] ∧
    (2259726149029420073 : Nat) ≠
      specFinalAmount 2305843009213693952 (specPenaltyPct 7862400 0) := by
  constructor
  · decide
  · decide

/-- C1 amended: the claimed penalty tiers and payout formula hold for
every unstake in which the u64 multiplication `amount * penalty_pct`
does not overflow (`amount * pct < 2 ^ 64`) and the i64 subtraction
`lock_until - now` does not overflow; the transferred amount then
equals `amount - floor(amount * pct / 100)` with the pct given by the
spec's tier table (10/7/5/0 by remaining lock days). -/
theorem unstake_penalty_formula_no_overflow
    (self : StakingContract) (poolKey stakerKey : List Nat) (s : Stake)
    (now : Int) (amount : Nat) (transferOk : Bool)
    (hwf : stakeWf s) (hinit : s.is_initialized = true)
    (hamt : amount ≤ s.amount)
    (hnow2 : now < s.lock_until → s.lock_until - now < 2 ^ 63)
    (hmul : amount * specPenaltyPct s.lock_until now < 2 ^ 64) :
    (unstakeTokens self true true poolKey stakerKey (stakeBytes s) now amount
        transferOk).transfers
      = [⟨poolKey, stakerKey,
          specFinalAmount amount (specPenaltyPct s.lock_until now)⟩] := by
  have hpen : (if now < s.lock_until then
        if Int.tdiv (i64Wrap (s.lock_until - now)) 86400 > 90 then (10 : Nat)
        else if Int.tdiv (i64Wrap (s.lock_until - now)) 86400 > 30 then 7
        else 5
      else 0) = specPenaltyPct s.lock_until now := by
    unfold specPenaltyPct
    by_cases hlt : now < s.lock_until
    · rw [if_pos hlt, if_pos hlt, i64Wrap_eq _ (by omega) (hnow2 hlt)]
    · rw [if_neg hlt, if_neg hlt]
  have hmul' : u64Mul amount (specPenaltyPct s.lock_until now)
      = amount * specPenaltyPct s.lock_until now := by
    unfold u64Mul
    exact Nat.mod_eq_of_lt hmul
  have hpack : stakePackIntoSlice { s with amount := s.amount - amount }
      (stakeBytes s) = some (stakeBytes { s with amount := s.amount - amount } ++
        (stakeBytes s).drop 17) := by
    unfold stakePackIntoSlice
    rw [if_pos (by rw [stakeBytes_length])]
  simp only [unstakeTokens, stakeUnpack_stakeBytes s hwf hinit]
  rw [if_neg (by decide), if_neg (by decide), if_neg (by omega), hpen, hmul', hpack]
  cases transferOk <;> rfl

/-- C1 witness: unstaking 1000 with 91 remaining lock days pays out
`1000 - floor(1000 * 10 / 100) = 900`. -/
theorem unstake_penalty_formula_no_overflow_witness :
    (unstakeTokens ⟨0, 15000000, 0⟩ true true (List.replicate 32 1)
        (List.replicate 32 2) (stakeBytes ⟨1000, 7862400, true⟩) 0 1000 true).transfers
      = [⟨List.replicate 32 1, List.replicate 32 2,
          specFinalAmount 1000 (specPenaltyPct 7862400 0)⟩] :=
  unstake_penalty_formula_no_overflow ⟨0, 15000000, 0⟩ (List.replicate 32 1)
    (List.replicate 32 2) ⟨1000, 7862400, true⟩ 0 1000 true (by decide) rfl
    (by decide) (by decide) (by decide)

/-- C7: in both `stake_tokens` and `unstake_tokens` the stake record is
written before the external transfer is requested — when the transfer
fails, the operation reports the transfer failure, yet the staking
account already holds the new record (the write is not rolled back),
while the requested balance movement did not happen. -/
theorem record_write_precedes_transfer :
    (∀ (self : StakingContract) (stakerKey poolKey stakingData : List Nat)
        (now : Int) (amount lockDays : Nat),
      stakingData.length = 17 →
      stakeTokens self true true stakerKey poolKey stakingData now amount lockDays false
        = ⟨self,
            stakeBytes ⟨amount, i64Wrap (now + i64Wrap (u64ToI64 lockDays * 86400)), true⟩,
            [⟨stakerKey, poolKey, amount⟩], .err .transferFailed⟩) ∧
    (∀ (self : StakingContract) (poolKey stakerKey stakingData : List Nat)
        (s : Stake) (now : Int) (amount : Nat),
      stakeUnpack stakingData = .ok s → amount ≤ s.amount →
      ∃ pa, unstakeTokens self true true poolKey stakerKey stakingData now amount false
        = ⟨⟨self.total_staked - amount, self.reward_pool, u64Add self.penalty_pool pa⟩,
            stakeBytes { s with amount := s.amount - amount },
            [⟨poolKey, stakerKey, amount - pa⟩], .err .transferFailed⟩) := by
  constructor
  · intro self stakerKey poolKey stakingData now amount lockDays h17
    have hpack : stakePackIntoSlice
        ⟨amount, i64Wrap (now + i64Wrap (u64ToI64 lockDays * 86400)), true⟩ stakingData
        = some (stakeBytes ⟨amount, i64Wrap (now + i64Wrap (u64ToI64 lockDays * 86400)),
            true⟩) := by
      unfold stakePackIntoSlice
      rw [if_pos (by omega), ← h17, List.drop_length, List.append_nil]
    simp only [stakeTokens]
    rw [if_neg (by decide), if_neg (by decide), hpack]
    simp
  · intro self poolKey stakerKey stakingData s now amount hdec hamt
    obtain ⟨h17, hinit⟩ := stakeUnpack_ok_inv _ _ hdec
    refine ⟨u64Mul amount (if now < s.lock_until then
        if Int.tdiv (i64Wrap (s.lock_until - now)) 86400 > 90 then (10 : Nat)
        else if Int.tdiv (i64Wrap (s.lock_until - now)) 86400 > 30 then 7
        else 5
      else 0) / 100, ?_⟩
    have hpack : stakePackIntoSlice { s with amount := s.amount - amount } stakingData
        = some (stakeBytes { s with amount := s.amount - amount }) := by
      unfold stakePackIntoSlice
      rw [if_pos (by omega), ← h17, List.drop_length, List.append_nil]
    simp only [unstakeTokens, hdec]
    rw [if_neg (by decide), if_neg (by decide), if_neg (by omega), hpack]
    simp

/-- C7 witness: staking 500 for 30 days with a failing transfer leaves
the freshly written record in the account alongside the reported
failure, and likewise for unstaking 200 from a stake of 500. -/
theorem record_write_precedes_transfer_witness :
    (stakeTokens ⟨0, 15000000, 0⟩ true true (List.replicate 32 1) (List.replicate 32 2)
        (List.replicate 17 0) 0 500 30 false
      = ⟨⟨0, 15000000, 0⟩,
          stakeBytes ⟨500, i64Wrap (0 + i64Wrap (u64ToI64 30 * 86400)), true⟩,
          [⟨List.replicate 32 1, List.replicate 32 2, 500⟩], .err .transferFailed⟩) ∧
    (∃ pa, unstakeTokens ⟨500, 15000000, 0⟩ true true (List.replicate 32 1)
        (List.replicate 32 2) (stakeBytes ⟨500, 0, true⟩) 100 200 false
      = ⟨⟨300, 15000000, u64Add 0 pa⟩,
          stakeBytes { Stake.mk 500 0 true with amount := 300 },
          [⟨List.replicate 32 1, List.replicate 32 2, 200 - pa⟩],
          .err .transferFailed⟩) :=
  ⟨record_write_precedes_transfer.1 ⟨0, 15000000, 0⟩ (List.replicate 32 1)
      (List.replicate 32 2) (List.replicate 17 0) 0 500 30 (by decide),
    record_write_precedes_transfer.2 ⟨500, 15000000, 0⟩ (List.replicate 32 1)
      (List.replicate 32 2) (stakeBytes ⟨500, 0, true⟩) ⟨500, 0, true⟩ 100 200
      (by decide) (by decide)⟩

/-- C6: `execute_proposal` by a signing `ADMIN`/`GOVERNANCE` authority
flips `active` true→false exactly once: on an open proposal it succeeds
and the re-encoded record decodes with `active = false`; on an
already-closed proposal it fails with `InvalidArgument` (the source's
invalid-state error) and leaves the record byte-for-byte unchanged, so
a second execution attempt always fails; execution never sets `active`
back to true. -/
theorem execute_proposal_active_once
    (authorityKey : List Nat) (proposalData : List Nat) (p : Proposal)
    (hauth : authorityKey = ADMIN_PUBKEY ∨ authorityKey = GOVERNANCE_PUBKEY)
    (hbytes : ∀ b ∈ proposalData, b < 256)
    (hdec : proposalUnpack proposalData = .ok p) :
    (p.active = true →
      ∃ pdata2, executeProposal authorityKey true proposalData = ⟨pdata2, .ok⟩ ∧
        proposalUnpack pdata2 = .ok { p with active := false } ∧
        executeProposal authorityKey true pdata2 = ⟨pdata2, .err .invalidArgument⟩) ∧
    (p.active = false →
      executeProposal authorityKey true proposalData
        = ⟨proposalData, .err .invalidArgument⟩) := by
  obtain ⟨hlen300, hslice, hinit⟩ := proposalUnpack_ok_inv _ _ hdec
  obtain ⟨hcap, hprop, hutf, -⟩ := proposalUnpackFromSlice_ok_inv _ _ hslice
  obtain ⟨ht1, ht2⟩ := proposalUnpackFromSlice_ok_ts_range _ _ hslice hbytes
  have hauthif : ¬(authorityKey ≠ ADMIN_PUBKEY ∧ authorityKey ≠ GOVERNANCE_PUBKEY) := by
    tauto
  constructor
  · intro hact
    have hpack : proposalPackIntoSlice { p with active := false } proposalData =
        some (proposalBytes { p with active := false } ++
          proposalData.drop (p.description.length + 46)) := by
      unfold proposalPackIntoSlice
      exact if_pos ⟨hprop, by show p.description.length + 46 ≤ proposalData.length; omega⟩
    have hlen2 : (proposalBytes { p with active := false } ++
        proposalData.drop (p.description.length + 46)).length = 300 := by
      rw [proposalBytes_tail_length { p with active := false } _ hprop, List.length_drop]
      show p.description.length + 46 + (proposalData.length - (p.description.length + 46)) = 300
      omega
    have hslice2 : proposalUnpackFromSlice (proposalBytes { p with active := false } ++
        proposalData.drop (p.description.length + 46)) = .ok { p with active := false } :=
      proposalUnpackFromSlice_bytes _ _ hprop hutf
        (by show p.description.length < 2 ^ 32; omega) ht1 ht2
    have hdec2 : proposalUnpack (proposalBytes { p with active := false } ++
        proposalData.drop (p.description.length + 46)) = .ok { p with active := false } := by
      unfold proposalUnpack
      rw [if_neg (by omega), hslice2]
      simp only []
      rw [if_pos hinit]
    refine ⟨proposalBytes { p with active := false } ++
      proposalData.drop (p.description.length + 46), ?_, hdec2, ?_⟩
    · unfold executeProposal
      rw [if_neg hauthif, if_neg (by decide), hdec]
      simp only []
      rw [if_neg (by simp [hact]), hpack]
    · unfold executeProposal
      rw [if_neg hauthif, if_neg (by decide), hdec2]
      simp
  · intro hact
    unfold executeProposal
    rw [if_neg hauthif, if_neg (by decide), hdec]
    simp only []
    rw [if_pos hact]

set_option maxRecDepth 40000 in
/-- C6 witness: executing the concrete open proposal closes it, and a
second execution attempt fails with `InvalidArgument`. -/
theorem execute_proposal_active_once_witness :
    ∃ pdata2, executeProposal ADMIN_PUBKEY true sampleProposalActiveData
        = ⟨pdata2, .ok⟩ ∧
      proposalUnpack pdata2 = .ok { sampleProposalActive with active := false } ∧
      executeProposal ADMIN_PUBKEY true pdata2 = ⟨pdata2, .err .invalidArgument⟩ :=
  (execute_proposal_active_once ADMIN_PUBKEY sampleProposalActiveData
    sampleProposalActive (Or.inl rfl) (by decide) (by decide)).1 rfl
